import Mathlib

/-!
Shallow embedding of the `mc-recipe` media ingestion pipeline.

The definitions below are translated from the JavaScript sources:

* `src/app/middleware/bouncer.js` (in the repo snapshot: `src/unnamed/part_017`,
  first revision): `parseMultipartFormData`, `clearFile`, `randomBytes`,
  `sanitize`, `bounce`;
* `src/app/services/media.js`: `createDir`, `removeDir`, `writeToDisk`,
  `set` (here `mediaSet`), `unset` (here `mediaUnset`), `fetch`
  (here `mediaFetch`);
* `src/app/services/user.js`: `setMedia` (here `userSetMedia`),
  `resetMedia`, `unsetMedia`;
* `src/app/services/recipe.js`: `setMedia` (here `recipeSetMedia`),
  `resetMedia`, `unsetMedia`;
* `src/app/controllers/user.js` / `src/app/controllers/recipe.js`:
  the media POST/PUT/DELETE handlers;
* `src/app/routes/recipe-media.js`: the GET media route handler.

Conventions of the embedding:

* The raw multipart body is the hex string produced by
  `req.setEncoding('hex')`, modelled as a Lean `String` of hex digits.
* Byte buffers are `List Nat` (byte values); `Buffer.toString` is modelled
  bytewise (exact for ASCII content, which is all the theorems use).
* JavaScript exceptions that escape a function are modelled with
  `Except Unit`; exceptions that the source catches are resolved to the
  source's catch-branch value directly.
* The `file-type` library (`FileType.fromBuffer`) and the MIME pattern are
  external collaborators, modelled by parameters `sniff : List Nat → Option
  String` and `accept : String → Bool`.
* `crypto.randomBytes` is modelled by an oracle `oracle : Nat → List Nat`
  giving the bytes produced by the i-th call.
* The event-loop interleaving of the parallel per-file scans in `sanitize`
  is modelled by a completion schedule `σ : List Nat`: the files are
  processed atomically in the order given by `σ`.  A schedule is legitimate
  when it is a permutation of the input indices; sequential completion in
  input order is the schedule `List.range files.length`.
* The filesystem under the media root is `FS`: a set of entity directories
  plus an association list of (entityId, fileName, bytes) where the most
  recent write is listed first.
-/

/-- Lowercase hex digit for a value below 16 (as produced by
`Buffer.toString('hex')`). -/
def hexDigitChar (n : Nat) : Char :=
  (("0123456789abcdef".data).getD n 'x')

/-- Two lowercase hex digits of a byte, as in `Buffer.toString('hex')`. -/
def byteToHex (b : Nat) : List Char :=
  [hexDigitChar ((b / 16) % 16), hexDigitChar (b % 16)]

/-- Hex encoding of a byte sequence as a character list. -/
def hexEncodeChars (bs : List Nat) : List Char :=
  bs.flatMap byteToHex

/-- Hex encoding of a byte sequence, `Buffer.toString('hex')`. -/
def hexEncode (bs : List Nat) : String :=
  (hexEncodeChars bs).asString

/-- Hex encoding of an ASCII string's bytes,
`Buffer.from(s).toString('hex')` for ASCII `s`. -/
def strToHexChars (s : String) : List Char :=
  hexEncodeChars (s.data.map Char.toNat)

/-- Value of a hex digit, as accepted by `Buffer.from(·, 'hex')`. -/
def hexVal (c : Char) : Option Nat :=
  if '0' ≤ c ∧ c ≤ '9' then some (c.toNat - '0'.toNat)
  else if 'a' ≤ c ∧ c ≤ 'f' then some (c.toNat - 'a'.toNat + 10)
  else if 'A' ≤ c ∧ c ≤ 'F' then some (c.toNat - 'A'.toNat + 10)
  else none

/-- Decode a hex character list to bytes; like `Buffer.from(·, 'hex')` it
stops at the first invalid or incomplete pair. -/
def hexDecodeBytes : List Char → List Nat
  | a :: b :: rest =>
    match hexVal a, hexVal b with
    | some x, some y => (16 * x + y) :: hexDecodeBytes rest
    | _, _ => []
  | _ => []

/-- Bytewise decoding of a byte list to a string (`Buffer.toString()`,
exact for ASCII bytes). -/
def bytesToString (bs : List Nat) : String :=
  (bs.map (fun b => Char.ofNat b)).asString

/-- Character class `[a-f\d]` of the bouncer's filename pattern. -/
def isHexDigitCh (c : Char) : Bool :=
  ('0' ≤ c ∧ c ≤ '9') ∨ ('a' ≤ c ∧ c ≤ 'f')

/-- Fuel-indexed splitter implementing JavaScript `String.split` with a
non-empty string separator; `acc` holds the current chunk reversed.  Fuel
`s.length + 1` always suffices because every step consumes a character. -/
def splitAux (sep : List Char) : Nat → List Char → List Char → List (List Char)
  | 0, acc, s => [acc.reverse ++ s]
  | _ + 1, acc, [] => [acc.reverse]
  | fuel + 1, acc, c :: cs =>
    match (c :: cs).dropPrefix? sep with
    | some rest => acc.reverse :: splitAux sep fuel [] rest
    | none => splitAux sep fuel (c :: acc) cs

/-- JavaScript `s.split(sep)` for a non-empty separator. -/
def jsSplit (sep s : String) : List String :=
  (splitAux sep.data (s.length + 1) [] s.data).map List.asString

/-- Boundary delimiter prefix `(2d){2}` followed by the hex-encoded
boundary token, from the regex in `parseMultipartFormData`. -/
def boundaryMarker (bhex : List Char) : List Char :=
  '2' :: 'd' :: '2' :: 'd' :: bhex

/-- Attempt to match the boundary regex
`(2d){2}<boundary>(2d2d)?0d0a` at the head of `s`; returns the number of
characters consumed.  The optional `(2d2d)?` is greedy, as in JavaScript. -/
def matchBoundaryAt (bhex : List Char) (s : List Char) : Option Nat :=
  match s.dropPrefix? (boundaryMarker bhex) with
  | none => none
  | some rest =>
    if ['2', 'd', '2', 'd', '0', 'd', '0', 'a'].isPrefixOf rest then
      some ((boundaryMarker bhex).length + 8)
    else if ['0', 'd', '0', 'a'].isPrefixOf rest then
      some ((boundaryMarker bhex).length + 4)
    else none

/-- Fuel-indexed scanner for the global replacement
`raw.replace(boundaryPattern, '|')`: leftmost match first, advancing past
each match, one character otherwise.  Fuel `s.length` always suffices
because every step consumes at least one character. -/
def replaceAux (bhex : List Char) : Nat → List Char → List Char
  | 0, s => s
  | _, [] => []
  | fuel + 1, c :: cs =>
    match matchBoundaryAt bhex (c :: cs) with
    | some k => '|' :: replaceAux bhex fuel ((c :: cs).drop k)
    | none => c :: replaceAux bhex fuel cs

/-- The global replacement `raw.replace(boundaryPattern, '|')` of
`parseMultipartFormData`. -/
def replaceBoundaries (bhex : List Char) (s : List Char) : List Char :=
  replaceAux bhex s.length s

/-- Hex encoding of `filename="`, the lookbehind of the bouncer's
filename pattern. -/
def fnMarker : List Char :=
  "66696c656e616d653d22".data

/-- Backtracking step of the greedy `[a-f\d]+` with lookahead `(?=22)`:
the largest `k ≤ bound`, `k ≥ 1`, such that `t.drop k` starts with `22`. -/
def backtrackAux (t : List Char) : Nat → Option Nat
  | 0 => none
  | k + 1 =>
    if ['2', '2'].isPrefixOf (t.drop (k + 1)) then some (k + 1)
    else backtrackAux t k

/-- First match of `/(?<=66696c656e616d653d22)[a-f\d]+(?=22)/` in a
character list: scan for the lookbehind marker, take the greedy hex run,
backtrack for the lookahead, else resume scanning at the next character. -/
def matchFilenameAux : List Char → Option (List Char)
  | [] => none
  | c :: cs =>
    if fnMarker.isPrefixOf (c :: cs) then
      let t := (c :: cs).drop fnMarker.length
      match backtrackAux t (t.takeWhile isHexDigitCh).length with
      | some k => some (t.take k)
      | none => matchFilenameAux cs
    else matchFilenameAux cs

/-- String form of the filename-pattern match (`rb[0].match(...)`,
first match or `null`). -/
def matchFilename (s : String) : Option String :=
  (matchFilenameAux s.data).map List.asString

/-- Upload candidate extracted by the wire decoder: the objects produced
by the final `map` of `parseMultipartFormData` either carry both `name`
and `bytes` (the filename pattern matched) or are the empty object `{}`. -/
inductive Cand where
  | file (name : String) (bytes : List Nat)
  | artifact
deriving DecidableEq, Repr

/-- Boundary-delimited segments of the raw body, each split on the
header/body separator `0d0a0d0a` and filtered on a non-empty first
component, as in `parseMultipartFormData`. -/
def multipartSegs (raw boundary : String) : List (List String) :=
  ((jsSplit "|" (replaceBoundaries (strToHexChars boundary) raw.data).asString).map
    (fun s => jsSplit "0d0a0d0a" s)).filter (fun rb => rb.headD "" ≠ "")

/-- The final `map` body of `parseMultipartFormData` for one part `rb`.
When the filename pattern matches but the part has no `0d0a0d0a`
separator, `rb[1]` is `undefined` and `rb[1].substr` throws a TypeError,
modelled as `Except.error`. -/
def parsePart (rb : List String) : Except Unit Cand :=
  match matchFilename (rb.headD "") with
  | none => Except.ok Cand.artifact
  | some nmHex =>
    match rb.get? 1 with
    | none => Except.error ()
    | some body =>
      Except.ok (Cand.file (bytesToString (hexDecodeBytes nmHex.data))
        (hexDecodeBytes (body.take (body.length - 4)).data))

/-- The bouncer's `parseMultipartFormData(raw, boundary)`: raw hex body
and boundary token to the list of extracted candidates, or a thrown
TypeError. -/
def parseMultipartFormData (raw boundary : String) : Except Unit (List Cand) :=
  (multipartSegs raw boundary).mapM parsePart

/-- Decidable equality for `Except`, used to evaluate the model on
concrete inputs. -/
instance {ε α : Type} [DecidableEq ε] [DecidableEq α] : DecidableEq (Except ε α) := fun a b =>
  match a, b with
  | .ok x, .ok y => if h : x = y then .isTrue (by simp [h]) else .isFalse (by simp [h])
  | .ok _, .error _ => .isFalse (by simp)
  | .error _, .ok _ => .isFalse (by simp)
  | .error e, .error f => if h : e = f then .isTrue (by simp [h]) else .isFalse (by simp [h])

/-- Index of the last occurrence of a character. -/
def lastIdxOf (c : Char) (s : List Char) : Option Nat :=
  ((s.enum.filter (fun p => p.2 = c)).getLast?).map (fun p => p.1)

/-- Basename: the part after the last path separator (Node `path.parse`
dir/base split, for names without trailing separators). -/
def baseNameOf (s : List Char) : List Char :=
  match lastIdxOf '/' s with
  | none => s
  | some i => s.drop (i + 1)

/-- Result of Node `path.parse` restricted to the fields the bouncer
uses. -/
structure PathParts where
  name : String
  ext : String
deriving DecidableEq, Repr

/-- Node `path.parse` name/ext split: the extension starts at the last
dot of the basename unless that dot is the first character or the
basename is `..`. -/
def pathParse (s : String) : PathParts :=
  let base := baseNameOf s.data
  match lastIdxOf '.' base with
  | none => ⟨base.asString, ""⟩
  | some 0 => ⟨base.asString, ""⟩
  | some i =>
    if base = ['.', '.'] then ⟨base.asString, ""⟩
    else ⟨(base.take i).asString, (base.drop i).asString⟩

/-- The bouncer's promise-ified `randomBytes`: resolves to the hex string
of the bytes produced by `crypto.randomBytes`; the generated bytes are
supplied by the randomness oracle. -/
def randomBytes (entropy : List Nat) : String :=
  hexEncode entropy

/-- The bouncer's `clearFile(file, pattern)`.  For an artifact the
`file.bytes` field is `undefined`, so `FileType.fromBuffer` throws and the
catch branch yields `false`; an unrecognized signature (`fileType ===
undefined`) or a MIME type that misses the pattern (`match` returns
`null`, so `.length` throws into the same catch) also yield `false`. -/
def clearFile (sniff : List Nat → Option String) (accept : String → Bool) : Cand → Bool
  | Cand.artifact => false
  | Cand.file _ b =>
    match sniff b with
    | none => false
    | some mime => accept mime

/-- Entry of the `cleared` array: `{ original, unique }`. -/
structure ClearedEntry where
  original : String
  unique : String
deriving DecidableEq, Repr

/-- Entry of the `filteredFiles` array: `{ unique, ...file }`. -/
structure FilteredFile where
  unique : String
  name : String
  bytes : List Nat
deriving DecidableEq, Repr

/-- The `req.files` object produced by `sanitize`. -/
structure Files where
  cleared : List ClearedEntry
  rejected : List String
  filteredFiles : List FilteredFile
deriving DecidableEq, Repr

/-- Pair each schedule position with the candidate it processes. -/
def scheduleOf (files : List Cand) (σ : List Nat) : List (Nat × Cand) :=
  σ.map (fun i => (i, files.getD i Cand.artifact))

/-- One parallel scan callback of `sanitize`, for the candidate at input
index `ic.1`: a cleared file pushes to `cleared` and `filteredFiles` (in
one synchronous step, with no check of the name); a non-cleared file
pushes its name to `rejected` only when the name is truthy — the guard
is `else if (file.name)`, so a non-cleared file whose decoded name is
the empty string is silently dropped, exactly like a nameless artifact
(for which `clearFile` is `false` and `file.name` is `undefined`). -/
def sanStep (sniff : List Nat → Option String) (accept : String → Bool)
    (oracle : Nat → List Nat) (acc : Files) (ic : Nat × Cand) : Files :=
  match ic.2 with
  | Cand.artifact => acc
  | Cand.file n b =>
    if clearFile sniff accept (Cand.file n b) then
      let p := pathParse n
      let unique := p.name ++ "-" ++ randomBytes (oracle ic.1) ++ p.ext
      { acc with cleared := acc.cleared ++ [⟨n, unique⟩],
                 filteredFiles := acc.filteredFiles ++ [⟨unique, n, b⟩] }
    else if n ≠ "" then { acc with rejected := acc.rejected ++ [n] }
    else acc

/-- The bouncer's `sanitize(files, mimePattern)`: the parallel scans
complete in the order given by the schedule `σ`, appending to the three
output arrays. -/
def sanitize (sniff : List Nat → Option String) (accept : String → Bool)
    (oracle : Nat → List Nat) (σ : List Nat) (files : List Cand) : Files :=
  (scheduleOf files σ).foldl (sanStep sniff accept oracle) ⟨[], [], []⟩

/-- Filesystem under the media root: the set of entity media directories
plus the files written in them, newest entry first (a later write of the
same path shadows the older one). -/
structure FS where
  dirs : List String
  files : List (String × String × List Nat)
deriving DecidableEq, Repr

/-- Names of the files in the media directory of entity `id`. -/
def dirNames (fs : FS) (id : String) : List String :=
  fs.files.filterMap (fun e => if e.1 = id then some e.2.1 else none)

/-- Media service `createDir(id)`: `mkdir` with `recursive: true`, which
succeeds whether or not the directory exists; errors are caught and
ignored. -/
def createDir (id : String) (fs : FS) : FS :=
  if id ∈ fs.dirs then fs else { fs with dirs := id :: fs.dirs }

/-- Media service `removeDir(id)`: `rm` with `recursive: true, force:
true`, removing the directory and its contents, a no-op when absent;
errors are caught and ignored. -/
def removeDir (id : String) (fs : FS) : FS :=
  { dirs := fs.dirs.filter (fun d => d ≠ id),
    files := fs.files.filter (fun e => e.1 ≠ id) }

/-- Media service `writeToDisk(id, files)`: one `writeFile` per entry,
each inside its own try/catch whose catch branch ignores the error, so a
failing write (modelled by the fault oracle `fsFail`, and by a missing
directory) is skipped without affecting the others; every entry resolves
to `undefined` (here `()`) whether the write succeeded or failed. -/
def writeToDisk (id : String) (files : List FilteredFile) (fsFail : String → Bool)
    (fs : FS) : List Unit × FS :=
  files.foldl
    (fun acc f =>
      if id ∈ acc.2.dirs ∧ ¬ fsFail f.unique then
        (acc.1 ++ [()], { acc.2 with files := (id, f.unique, f.bytes) :: acc.2.files })
      else (acc.1 ++ [()], acc.2))
    ([], fs)

/-- Context object `{ cleared, rejected }` of a media `set` response. -/
structure RespCtx where
  cleared : List ClearedEntry
  rejected : List String
deriving DecidableEq, Repr

/-- A `quickResponse` package: status, message, optional context. -/
structure Resp where
  status : Nat
  message : String
  context : Option RespCtx
deriving DecidableEq, Repr

/-- Message `noContentMessage` of media `set`. -/
def noContentMessage (id : String) : String :=
  "No media to upload for entity with ID of \"" ++ id ++ "\", nothing to do."

/-- Message `createdMessage` of media `set`. -/
def createdMessage (id : String) : String :=
  "The media for entity with ID of \"" ++ id ++ "\" was successfully uploaded."

/-- Message of media `set` when some files were rejected: the whole
`createdMessage` is replaced by the `someSub` snippet. -/
def someRejectedMessage : String :=
  "Some of the selected media was unable to be uploaded."

/-- Message of media `set` when nothing was cleared: the `noneRep` part
of `noContentMessage` is replaced by the `noneSub` snippet. -/
def noneClearedMessage : String :=
  "The selected media was unable to be uploaded, nothing to do."

/-- Media service `set(id, files, overwrite)`.  Passing `none` for
`files?` models `req.files` being `undefined`: the destructuring on the
first line throws, the catch branch returns a 500 response.  Otherwise:
both lists empty gives an early 204 without context; nothing cleared
gives 204 with context and no disk activity; otherwise the directory is
(re)created (removed first when `overwrite`), the filtered files are
written, and a 201 response carries the cleared and rejected names. -/
def mediaSet (id : String) (files? : Option Files) (overwrite : Bool)
    (fsFail : String → Bool) (fs : FS) : Resp × FS :=
  match files? with
  | none => (⟨500, "Internal server error.", none⟩, fs)
  | some f =>
    if f.cleared = [] ∧ f.rejected = [] then
      (⟨204, noContentMessage id, none⟩, fs)
    else if f.cleared = [] then
      (⟨204, noneClearedMessage, some ⟨f.cleared, f.rejected⟩⟩, fs)
    else
      let msg := if f.rejected = [] then createdMessage id else someRejectedMessage
      let fs1 := if overwrite then removeDir id fs else fs
      let fs2 := createDir id fs1
      let fs3 := (writeToDisk id f.filteredFiles fsFail fs2).2
      (⟨201, msg, some ⟨f.cleared, f.rejected⟩⟩, fs3)

/-- Media service `unset(id)`: remove the directory and report 200. -/
def mediaUnset (id : String) (fs : FS) : Resp × FS :=
  (⟨200, "The media for entity with ID of \"" ++ id ++ "\" was successfully deleted.", none⟩,
    removeDir id fs)

/-- Resolve `.`, `..` and empty segments as Node `path.join` does;
`stack` holds the already-resolved segments reversed. -/
def resolveAux (stack : List String) : List String → List String
  | [] => stack.reverse
  | s :: rest =>
    if s = "" ∨ s = "." then resolveAux stack rest
    else if s = ".." then
      match stack with
      | [] => resolveAux [".."] rest
      | t :: ts => if t = ".." then resolveAux (".." :: t :: ts) rest else resolveAux ts rest
    else resolveAux (s :: stack) rest

/-- Path of `path.join(mediaDir, id, name)` relative to the media root:
the id segment followed by the slash-separated segments of `name`,
normalized. -/
def resolvePath (id name : String) : List String :=
  resolveAux [] (id :: jsSplit "/" name)

/-- Read the bytes at a resolved path; files live one level below an
entity directory. -/
def readFileAt (fs : FS) (p : List String) : Option (List Nat) :=
  match p with
  | [a, n] => (fs.files.find? (fun e => e.1 = a ∧ e.2.1 = n)).map (fun e => e.2.2)
  | _ => none

/-- Payload slot of a media `fetch` response: `quickResponse` puts the
file buffer (or the not-found text) in the `message` field. -/
inductive FetchMsg where
  | bytes (b : List Nat)
  | text (s : String)
deriving DecidableEq, Repr

/-- A media `fetch` response package; `context` is never set by `fetch`. -/
structure FetchResp where
  status : Nat
  message : FetchMsg
  context : Option (List Nat)
deriving DecidableEq, Repr

/-- Media service `fetch(id, name)`: joins `mediaDir`, `id` and `name`
without validating `name`, reads the file, and returns its bytes as the
response message; a read failure becomes a 404. -/
def mediaFetch (fs : FS) (id name : String) : FetchResp :=
  match readFileAt fs (resolvePath id name) with
  | some b => ⟨200, FetchMsg.bytes b, none⟩
  | none =>
    ⟨404, FetchMsg.text ("The media with name of \"" ++ name ++
      "\" for the entity with ID of \"" ++ id ++ "\" could not be retrieved."), none⟩

/-- A user record's media reference: the schema stores a single filename
string, empty (falsy) when no media is linked. -/
structure UserRec where
  media : String
deriving DecidableEq, Repr

/-- A recipe record's media reference: a list of filenames. -/
structure RecipeRec where
  media : List String
deriving DecidableEq, Repr

/-- Message for a missing user in the media operations of the user
service. -/
def userNotFoundMessage (id : String) : String :=
  "The user with ID of \"" ++ id ++ "\" does not exist."

/-- Conflict message of the user service `setMedia`. -/
def userConflictMessage (id : String) : String :=
  "The media for the user with ID of \"" ++ id ++ "\" could not be created, already exists."

/-- Success message of the user service `setMedia`. -/
def userSetMediaOkMessage (id : String) : String :=
  "The user with ID of \"" ++ id ++ "\" was successfully linked to the new media."

/-- The `mediaIncluded` check of the user service `setMedia`:
`Object.values(files).some(a => a.length > 0)` over the three arrays. -/
def mediaIncluded (f : Files) : Bool :=
  f.cleared.length > 0 || f.rejected.length > 0 || f.filteredFiles.length > 0

/-- User service `setMedia(id, files)`.  The function has no try/catch:
when `files` is `undefined` (`none`) and the conflict guard falls
through, reading `files.cleared` throws a TypeError that escapes
(`Except.error`).  Only the first cleared name is saved to the
single-string `media` field. -/
def userSetMedia (id : String) (userExists : Bool) (user : UserRec)
    (files? : Option Files) : Except Unit (Resp × UserRec) :=
  if ¬ userExists then Except.ok (⟨404, userNotFoundMessage id, none⟩, user)
  else
    let noContentResponseNotNeeded :=
      match files? with
      | none => false
      | some f => mediaIncluded f && f.cleared.length > 0
    if user.media ≠ "" ∧ noContentResponseNotNeeded = true then
      Except.ok (⟨400, userConflictMessage id, none⟩, user)
    else
      match files? with
      | none => Except.error ()
      | some f =>
        if f.cleared.length > 0 then
          Except.ok (⟨200, userSetMediaOkMessage id, none⟩,
            ⟨((f.cleared.headD ⟨"", ""⟩).unique)⟩)
        else Except.ok (⟨200, userSetMediaOkMessage id, none⟩, user)

/-- User service `resetMedia(id, files)`: overwrites the single-string
`media` field with the first cleared name when anything was cleared;
like `setMedia` it throws when `files` is `undefined`. -/
def userResetMedia (id : String) (userExists : Bool) (user : UserRec)
    (files? : Option Files) : Except Unit (Resp × UserRec) :=
  if ¬ userExists then Except.ok (⟨404, userNotFoundMessage id, none⟩, user)
  else
    match files? with
    | none => Except.error ()
    | some f =>
      if f.cleared.length > 0 then
        Except.ok (⟨200, "The user with ID of \"" ++ id ++
          "\" was successfully updated to the new media.", none⟩,
          ⟨((f.cleared.headD ⟨"", ""⟩).unique)⟩)
      else Except.ok (⟨200, "The user with ID of \"" ++ id ++
        "\" was successfully updated to the new media.", none⟩, user)

/-- User service `unsetMedia(id)`: clears the `media` field. -/
def userUnsetMedia (id : String) (userExists : Bool) (user : UserRec) :
    Resp × UserRec :=
  if ¬ userExists then (⟨404, userNotFoundMessage id, none⟩, user)
  else (⟨200, "The user with ID of \"" ++ id ++
    "\" was successfully updated with no media.", none⟩, ⟨""⟩)

/-- First-occurrence deduplication, `Array.from(new Set(l))`. -/
def jsSetDedupAux (seen : List String) : List String → List String
  | [] => []
  | a :: l => if a ∈ seen then jsSetDedupAux seen l else a :: jsSetDedupAux (a :: seen) l

/-- JavaScript `Array.from(new Set(l))`. -/
def jsSetDedup (l : List String) : List String :=
  jsSetDedupAux [] l

/-- Recipe service `setMedia(id, filenames)`: unions the unique names of
the cleared entries into the recipe's `media` list (additive, no
overwrite) when anything was cleared. -/
def recipeSetMedia (id : String) (recipeExists : Bool) (rec : RecipeRec)
    (filenames : List ClearedEntry) : Resp × RecipeRec :=
  if ¬ recipeExists then
    (⟨404, "The recipe with ID of \"" ++ id ++ "\" does not exist.", none⟩, rec)
  else if filenames.length > 0 then
    (⟨200, "The recipe with ID of \"" ++ id ++ "\" was successfully linked to the new media.",
      none⟩, ⟨jsSetDedup (rec.media ++ filenames.map (fun m => m.unique))⟩)
  else
    (⟨200, "The recipe with ID of \"" ++ id ++ "\" was successfully linked to the new media.",
      none⟩, rec)

/-- Recipe service `resetMedia(id, filenames)`: overwrites the recipe's
`media` list with the deduplicated cleared names when anything was
cleared. -/
def recipeResetMedia (id : String) (recipeExists : Bool) (rec : RecipeRec)
    (filenames : List ClearedEntry) : Resp × RecipeRec :=
  if ¬ recipeExists then
    (⟨404, "The recipe with ID of \"" ++ id ++ "\" does not exist.", none⟩, rec)
  else if filenames.length > 0 then
    (⟨200, "The recipe with ID of \"" ++ id ++ "\" was successfully updated to the new media.",
      none⟩, ⟨jsSetDedup (filenames.map (fun m => m.unique))⟩)
  else
    (⟨200, "The recipe with ID of \"" ++ id ++ "\" was successfully updated to the new media.",
      none⟩, rec)

/-- Recipe service `unsetMedia(id)`: clears the `media` list. -/
def recipeUnsetMedia (id : String) (recipeExists : Bool) (rec : RecipeRec) :
    Resp × RecipeRec :=
  if ¬ recipeExists then
    (⟨404, "The recipe with ID of \"" ++ id ++ "\" does not exist.", none⟩, rec)
  else
    (⟨200, "The recipe with ID of \"" ++ id ++ "\" was successfully updated with no media.",
      none⟩, ⟨[]⟩)

/-- User controller `postUserMedia` (attach): user service first, media
service only on a 200 from it. -/
def postUserMedia (id : String) (userExists : Bool) (user : UserRec)
    (files? : Option Files) (fsFail : String → Bool) (fs : FS) :
    Except Unit (Resp × UserRec × FS) := do
  let (r1, user') ← userSetMedia id userExists user files?
  if r1.status ≠ 200 then
    Except.ok (r1, user', fs)
  else
    let (r2, fs') := mediaSet id files? false fsFail fs
    Except.ok (r2, user', fs')

/-- User controller `putUserMedia` (replace): user service first, then
media service with `overwrite` set. -/
def putUserMedia (id : String) (userExists : Bool) (user : UserRec)
    (files? : Option Files) (fsFail : String → Bool) (fs : FS) :
    Except Unit (Resp × UserRec × FS) := do
  let (r1, user') ← userResetMedia id userExists user files?
  if r1.status ≠ 200 then
    Except.ok (r1, user', fs)
  else
    let (r2, fs') := mediaSet id files? true fsFail fs
    Except.ok (r2, user', fs')

/-- User controller `deleteUserMedia` (detach): user service first, then
media service `unset`. -/
def deleteUserMedia (id : String) (userExists : Bool) (user : UserRec)
    (fs : FS) : Resp × UserRec × FS :=
  let (r1, user') := userUnsetMedia id userExists user
  if r1.status ≠ 200 then (r1, user', fs)
  else
    let (r2, fs') := mediaUnset id fs
    (r2, user', fs')

/-- Recipe controller `postRecipeMedia` (attach, after the auth guards):
reading `req.files.cleared` throws when `req.files` is `undefined`;
otherwise recipe service first, media service on a 200. -/
def postRecipeMedia (id : String) (recipeExists : Bool) (rec : RecipeRec)
    (files? : Option Files) (fsFail : String → Bool) (fs : FS) :
    Except Unit (Resp × RecipeRec × FS) :=
  match files? with
  | none => Except.error ()
  | some f =>
    let (r1, rec') := recipeSetMedia id recipeExists rec f.cleared
    if r1.status ≠ 200 then Except.ok (r1, rec', fs)
    else
      let (r2, fs') := mediaSet id (some f) false fsFail fs
      Except.ok (r2, rec', fs')

/-- Recipe controller `putRecipeMedia` (replace, after the auth guards). -/
def putRecipeMedia (id : String) (recipeExists : Bool) (rec : RecipeRec)
    (files? : Option Files) (fsFail : String → Bool) (fs : FS) :
    Except Unit (Resp × RecipeRec × FS) :=
  match files? with
  | none => Except.error ()
  | some f =>
    let (r1, rec') := recipeResetMedia id recipeExists rec f.cleared
    if r1.status ≠ 200 then Except.ok (r1, rec', fs)
    else
      let (r2, fs') := mediaSet id (some f) true fsFail fs
      Except.ok (r2, rec', fs')

/-- Recipe controller `deleteRecipeMedia` (detach, after the auth
guards). -/
def deleteRecipeMedia (id : String) (recipeExists : Bool) (rec : RecipeRec)
    (fs : FS) : Resp × RecipeRec × FS :=
  let (r1, rec') := recipeUnsetMedia id recipeExists rec
  if r1.status ≠ 200 then (r1, rec', fs)
  else
    let (r2, fs') := mediaUnset id fs
    (r2, rec', fs')

/-- Find the start index of the first occurrence of `pat` in `s`. -/
def findSubIdx (pat : List Char) : List Char → Option Nat
  | [] => if pat = [] then some 0 else none
  | c :: cs =>
    if pat.isPrefixOf (c :: cs) then some 0
    else (findSubIdx pat cs).map (fun i => i + 1)

/-- The boundary extraction `req.headers['content-type'].match(/(?<=boundary=).*$/)`:
everything after the first `boundary=`, or `none` when the pattern does
not occur. -/
def boundaryOf (ct : String) : Option String :=
  (findSubIdx "boundary=".data ct.data).map (fun i => ct.drop (i + 9))

/-- The parts of an HTTP request the bouncer reads. -/
structure Req where
  contentLength : Option String
  contentType : Option String
  bodyHex : String
deriving DecidableEq, Repr

/-- The bouncer middleware `bounce(mimePattern)` applied to a request
(with a genuine `RegExp` pattern, so the first guard passes).  A
`content-length` of `'0'` calls `next()` without touching `req.files`
(result `none`).  Otherwise the body is decoded: a missing
`content-type` or one without `boundary=` makes the header match throw
(`Except.error`), and the decoded candidates are sanitized into
`req.files` (result `some`). -/
def bounce (sniff : List Nat → Option String) (accept : String → Bool)
    (oracle : Nat → List Nat) (σ : List Nat) (req : Req) :
    Except Unit (Option Files) :=
  if req.contentLength = some "0" then Except.ok none
  else
    match req.contentType with
    | none => Except.error ()
    | some ct =>
      match boundaryOf ct with
      | none => Except.error ()
      | some b => do
        let cands ← parseMultipartFormData req.bodyHex b
        Except.ok (some (sanitize sniff accept oracle σ cands))

/-- The full user attach request path: the bouncer produces `req.files`,
then the user media POST controller runs. -/
def userMediaPostRequest (sniff : List Nat → Option String) (accept : String → Bool)
    (oracle : Nat → List Nat) (σ : List Nat) (id : String) (userExists : Bool)
    (user : UserRec) (fsFail : String → Bool) (fs : FS) (req : Req) :
    Except Unit (Resp × UserRec × FS) := do
  let files? ← bounce sniff accept oracle σ req
  postUserMedia id userExists user files? fsFail fs

/-- Content type chosen by the media GET route handlers:
`filename.split('.')[1] === 'png' ? 'png' : 'jpeg'`. -/
def contentTypeFor (filename : String) : String :=
  if (jsSplit "." filename).getD 1 "" = "png" then "image/png" else "image/jpeg"

/-- Response of the media GET route: either `res.json(data)` on a 404, or
`res.set('Content-Type', ...).send(file)` where `file` is `data.context`. -/
inductive RouteOut where
  | json (status : Nat) (message : FetchMsg)
  | fileOut (status : Nat) (contentType : String) (body : Option (List Nat))
deriving DecidableEq, Repr

/-- The GET handler of `routes/recipe-media.js`: fetch, 404 as JSON,
otherwise send `data.context` (which `fetch` never sets) with the
content type inferred by `contentTypeFor`. -/
def getRecipeMediaRoute (fs : FS) (id filename : String) : RouteOut :=
  let r := mediaFetch fs id filename
  if r.status = 404 then RouteOut.json r.status r.message
  else RouteOut.fileOut r.status (contentTypeFor filename) r.context

/-- Boolean projection of an `Except` result (`true` on `ok`). -/
def exceptOk {ε α : Type} : Except ε α → Bool
  | Except.ok _ => true
  | Except.error _ => false

/-- Write-fault oracle with no faults: every `writeFile` succeeds. -/
def noWriteFault : String → Bool := fun _ => false

section SanitizeLemmas

variable (sniff : List Nat → Option String) (accept : String → Bool)
variable (oracle : Nat → List Nat)

/-- Entry pushed to `cleared` by the scan of a schedule element, if any. -/
def clearedEntryOf : Nat × Cand → Option ClearedEntry
  | (i, Cand.file n b) =>
    if clearFile sniff accept (Cand.file n b) then
      some ⟨n, (pathParse n).name ++ "-" ++ randomBytes (oracle i) ++ (pathParse n).ext⟩
    else none
  | (_, Cand.artifact) => none

/-- Name pushed to `rejected` by the scan of a schedule element, if any:
a non-cleared file contributes its name only when the name is non-empty
(the `else if (file.name)` truthiness guard). -/
def rejectedNameOf : Nat × Cand → Option String
  | (_, Cand.file n b) =>
    if clearFile sniff accept (Cand.file n b) then none
    else if n ≠ "" then some n else none
  | (_, Cand.artifact) => none

/-- Entry pushed to `filteredFiles` by the scan of a schedule element, if
any. -/
def filteredFileOf : Nat × Cand → Option FilteredFile
  | (i, Cand.file n b) =>
    if clearFile sniff accept (Cand.file n b) then
      some ⟨(pathParse n).name ++ "-" ++ randomBytes (oracle i) ++ (pathParse n).ext, n, b⟩
    else none
  | (_, Cand.artifact) => none

/-- Name of a candidate that the scan clears, if any. -/
def clearedCandName : Cand → Option String
  | Cand.file n b =>
    if clearFile sniff accept (Cand.file n b) then some n else none
  | Cand.artifact => none

/-- Name of a candidate that the scan pushes to `rejected`, if any: a
non-cleared file contributes its name only when the name is non-empty
(the `else if (file.name)` truthiness guard); empty-named non-cleared
files and artifacts contribute nothing. -/
def rejectedCandName : Cand → Option String
  | Cand.file n b =>
    if clearFile sniff accept (Cand.file n b) then none
    else if n ≠ "" then some n else none
  | Cand.artifact => none

/-- Candidate that the scan drops with no output at all: a nameless
artifact, or a non-cleared file whose decoded name is the empty string
(falsy in the `else if (file.name)` guard). -/
def droppedCand : Cand → Bool
  | Cand.file n b => !(clearFile sniff accept (Cand.file n b)) && n == ""
  | Cand.artifact => true

theorem foldl_sanStep (L : List (Nat × Cand)) (acc : Files) :
    L.foldl (sanStep sniff accept oracle) acc =
      ⟨acc.cleared ++ L.filterMap (clearedEntryOf sniff accept oracle),
       acc.rejected ++ L.filterMap (rejectedNameOf sniff accept),
       acc.filteredFiles ++ L.filterMap (filteredFileOf sniff accept oracle)⟩ := by
  induction L generalizing acc with
  | nil => simp
  | cons p L ih =>
    obtain ⟨i, c⟩ := p
    cases c with
    | artifact =>
      simp [sanStep, ih, clearedEntryOf, rejectedNameOf, filteredFileOf]
    | file n b =>
      by_cases h : clearFile sniff accept (Cand.file n b) = true
      · simp [sanStep, ih, clearedEntryOf, rejectedNameOf, filteredFileOf, h]
      · simp only [Bool.not_eq_true] at h
        by_cases hn : n = ""
        · subst hn
          simp [sanStep, ih, clearedEntryOf, rejectedNameOf, filteredFileOf, h]
        · simp [sanStep, ih, clearedEntryOf, rejectedNameOf, filteredFileOf, h, hn]

theorem sanitize_eq (σ : List Nat) (files : List Cand) :
    sanitize sniff accept oracle σ files =
      ⟨(scheduleOf files σ).filterMap (clearedEntryOf sniff accept oracle),
       (scheduleOf files σ).filterMap (rejectedNameOf sniff accept),
       (scheduleOf files σ).filterMap (filteredFileOf sniff accept oracle)⟩ := by
  simpa [sanitize] using foldl_sanStep sniff accept oracle (scheduleOf files σ) ⟨[], [], []⟩

theorem range_map_enumFrom {α : Type} (l : List α) (d : α) :
    ∀ s, (List.range l.length).map (fun i => (s + i, l.getD i d)) = List.enumFrom s l := by
  induction l with
  | nil => intro s; simp
  | cons a t ih =>
    intro s
    simp only [List.length_cons, List.range_succ_eq_map, List.map_cons, List.map_map,
      List.enumFrom_cons, Nat.add_zero, List.getD_cons_zero]
    refine congrArg _ ?_
    rw [← ih (s + 1)]
    refine List.map_congr_left ?_
    intro i _
    simp only [Function.comp_apply, Nat.succ_eq_add_one, List.getD_cons_succ]
    exact congrArg (fun k => (k, t.getD i d)) (by omega)

theorem scheduleOf_range (files : List Cand) :
    scheduleOf files (List.range files.length) = files.enum := by
  have h := range_map_enumFrom files Cand.artifact 0
  simp only [Nat.zero_add] at h
  simpa [scheduleOf, List.enum] using h

theorem enumFrom_filterMap_snd {β : Type} (g : Cand → Option β) (l : List Cand) :
    ∀ s, (List.enumFrom s l).filterMap (fun p => g p.2) = l.filterMap g := by
  induction l with
  | nil => intro s; simp
  | cons a t ih =>
    intro s
    simp only [List.enumFrom_cons, List.filterMap_cons]
    cases g a <;> simp [ih (s + 1)]

theorem enumFrom_countP_snd (q : Cand → Bool) (l : List Cand) :
    ∀ s, (List.enumFrom s l).countP (fun p => q p.2) = l.countP q := by
  induction l with
  | nil => intro s; simp
  | cons a t ih =>
    intro s
    simp [List.enumFrom_cons, List.countP_cons, ih (s + 1)]

theorem clearedEntryOf_map_original (p : Nat × Cand) :
    (clearedEntryOf sniff accept oracle p).map ClearedEntry.original =
      clearedCandName sniff accept p.2 := by
  obtain ⟨i, c⟩ := p
  cases c with
  | artifact => rfl
  | file n b =>
    by_cases h : clearFile sniff accept (Cand.file n b) = true
    · simp [clearedEntryOf, clearedCandName, h]
    · simp only [Bool.not_eq_true] at h
      simp [clearedEntryOf, clearedCandName, h]

theorem rejectedNameOf_eq_snd (p : Nat × Cand) :
    rejectedNameOf sniff accept p = rejectedCandName sniff accept p.2 := by
  obtain ⟨i, c⟩ := p
  cases c <;> rfl

theorem filteredFileOf_map_unique (p : Nat × Cand) :
    (filteredFileOf sniff accept oracle p).map FilteredFile.unique =
      (clearedEntryOf sniff accept oracle p).map ClearedEntry.unique := by
  obtain ⟨i, c⟩ := p
  cases c with
  | artifact => rfl
  | file n b =>
    by_cases h : clearFile sniff accept (Cand.file n b) = true
    · simp [clearedEntryOf, filteredFileOf, h]
    · simp only [Bool.not_eq_true] at h
      simp [clearedEntryOf, filteredFileOf, h]

/-- The scan pushes to `cleared` and `filteredFiles` in the same
synchronous step, so the unique names of the two output arrays agree
elementwise for every schedule. -/
theorem sanitize_wellFormed (σ : List Nat) (files : List Cand) :
    (sanitize sniff accept oracle σ files).filteredFiles.map FilteredFile.unique =
      (sanitize sniff accept oracle σ files).cleared.map ClearedEntry.unique := by
  rw [sanitize_eq]
  simp only [List.map_filterMap]
  exact List.filterMap_congr (fun p _ => filteredFileOf_map_unique sniff accept oracle p)

end SanitizeLemmas

section FsLemmas

/-- The FS component of `writeToDisk`, as a plain fold. -/
def writeAll (id : String) (files : List FilteredFile) (fsFail : String → Bool)
    (fs : FS) : FS :=
  files.foldl
    (fun g f =>
      if id ∈ g.dirs ∧ ¬ fsFail f.unique then
        { g with files := (id, f.unique, f.bytes) :: g.files }
      else g)
    fs

theorem writeToDisk_eq (id : String) (files : List FilteredFile)
    (fsFail : String → Bool) :
    ∀ (u : List Unit) (g : FS),
      files.foldl
        (fun acc f =>
          if id ∈ acc.2.dirs ∧ ¬ fsFail f.unique then
            (acc.1 ++ [()], { acc.2 with files := (id, f.unique, f.bytes) :: acc.2.files })
          else (acc.1 ++ [()], acc.2))
        (u, g) = (u ++ files.map (fun _ => ()), writeAll id files fsFail g) := by
  induction files with
  | nil => intro u g; simp [writeAll]
  | cons f t ih =>
    intro u g
    rw [List.foldl_cons]
    by_cases h : id ∈ g.dirs ∧ ¬ fsFail f.unique = true
    · rw [if_pos h, ih]
      rw [show writeAll id (f :: t) fsFail g
        = writeAll id t fsFail { g with files := (id, f.unique, f.bytes) :: g.files } by
          rw [writeAll, List.foldl_cons, if_pos h]; rfl]
      simp
    · rw [if_neg h, ih]
      rw [show writeAll id (f :: t) fsFail g = writeAll id t fsFail g by
        rw [writeAll, List.foldl_cons, if_neg h]; rfl]
      simp

theorem writeToDisk_fst (id : String) (files : List FilteredFile)
    (fsFail : String → Bool) (fs : FS) :
    (writeToDisk id files fsFail fs).1 = files.map (fun _ => ()) := by
  rw [writeToDisk, writeToDisk_eq]
  simp

theorem writeToDisk_snd (id : String) (files : List FilteredFile)
    (fsFail : String → Bool) (fs : FS) :
    (writeToDisk id files fsFail fs).2 = writeAll id files fsFail fs := by
  rw [writeToDisk, writeToDisk_eq]

theorem dirs_writeAll (id : String) (files : List FilteredFile)
    (fsFail : String → Bool) :
    ∀ fs : FS, (writeAll id files fsFail fs).dirs = fs.dirs := by
  induction files with
  | nil => intro fs; rfl
  | cons f t ih =>
    intro fs
    rw [writeAll, List.foldl_cons]
    refine (ih _).trans ?_
    split <;> rfl

theorem dirNames_createDir (id id' : String) (fs : FS) :
    dirNames (createDir id fs) id' = dirNames fs id' := by
  unfold createDir dirNames
  split <;> rfl

theorem mem_dirs_createDir (id : String) (fs : FS) :
    id ∈ (createDir id fs).dirs := by
  unfold createDir
  split
  · assumption
  · exact List.mem_cons_self _ _

theorem dirNames_removeDir (id : String) (fs : FS) :
    dirNames (removeDir id fs) id = [] := by
  rw [dirNames, removeDir, List.filterMap_eq_nil_iff]
  intro e he
  have hne : e.1 ≠ id := by simpa using (List.mem_filter.mp he).2
  simp [hne]

theorem mem_dirNames_cons_write (id : String) (f : FilteredFile) (fs : FS) :
    dirNames { fs with files := (id, f.unique, f.bytes) :: fs.files } id
      = f.unique :: dirNames fs id := by
  simp [dirNames]

theorem mem_dirNames_writeAll (id : String) (files : List FilteredFile)
    (fsFail : String → Bool) (n : String) :
    ∀ fs : FS, id ∈ fs.dirs →
      (n ∈ dirNames (writeAll id files fsFail fs) id ↔
        (∃ f ∈ files, f.unique = n ∧ fsFail f.unique = false) ∨ n ∈ dirNames fs id) := by
  induction files with
  | nil => intro fs _; simp [writeAll]
  | cons f t ih =>
    intro fs hdir
    rw [writeAll, List.foldl_cons]
    by_cases h : fsFail f.unique = true
    · have hcond : ¬ (id ∈ fs.dirs ∧ ¬ fsFail f.unique = true) := by simp [h]
      rw [if_neg hcond]
      rw [show (t.foldl _ fs : FS) = writeAll id t fsFail fs from rfl]
      rw [ih fs hdir]
      constructor
      · rintro (⟨g, hg, hgn⟩ | hmem)
        · exact Or.inl ⟨g, List.mem_cons_of_mem _ hg, hgn⟩
        · exact Or.inr hmem
      · rintro (⟨g, hg, hgn, hgf⟩ | hmem)
        · rcases List.mem_cons.mp hg with rfl | hg
          · rw [hgf] at h; exact absurd h (by simp)
          · exact Or.inl ⟨g, hg, hgn, hgf⟩
        · exact Or.inr hmem
    · simp only [Bool.not_eq_true] at h
      have hcond : id ∈ fs.dirs ∧ ¬ fsFail f.unique = true := ⟨hdir, by simp [h]⟩
      rw [if_pos hcond]
      rw [show (t.foldl _ _ : FS) = writeAll id t fsFail
        { fs with files := (id, f.unique, f.bytes) :: fs.files } from rfl]
      rw [ih { fs with files := (id, f.unique, f.bytes) :: fs.files } hdir,
        mem_dirNames_cons_write]
      constructor
      · rintro (⟨g, hg, hgn, hgf⟩ | hmem)
        · exact Or.inl ⟨g, List.mem_cons_of_mem _ hg, hgn, hgf⟩
        · rcases List.mem_cons.mp hmem with rfl | hmem
          · exact Or.inl ⟨f, List.mem_cons_self _ _, rfl, h⟩
          · exact Or.inr hmem
      · rintro (⟨g, hg, hgn, hgf⟩ | hmem)
        · rcases List.mem_cons.mp hg with rfl | hg
          · exact Or.inr (by rw [← hgn]; exact List.mem_cons_self _ _)
          · exact Or.inl ⟨g, hg, hgn, hgf⟩
        · exact Or.inr (List.mem_cons_of_mem _ hmem)

theorem mem_jsSetDedupAux (a : String) (l : List String) :
    ∀ seen, a ∈ jsSetDedupAux seen l ↔ a ∈ l ∧ a ∉ seen := by
  induction l with
  | nil => intro seen; simp [jsSetDedupAux]
  | cons b t ih =>
    intro seen
    by_cases h : b ∈ seen
    · rw [jsSetDedupAux, if_pos h, ih seen]
      constructor
      · rintro ⟨ht, hs⟩
        exact ⟨List.mem_cons_of_mem _ ht, hs⟩
      · rintro ⟨hbt, hs⟩
        rcases List.mem_cons.mp hbt with rfl | ht
        · exact absurd h hs
        · exact ⟨ht, hs⟩
    · rw [jsSetDedupAux, if_neg h]
      constructor
      · intro hmem
        rcases List.mem_cons.mp hmem with rfl | ht
        · exact ⟨List.mem_cons_self _ _, h⟩
        · rcases (ih (b :: seen)).mp ht with ⟨htl, hns⟩
          refine ⟨List.mem_cons_of_mem _ htl, fun hs => hns (List.mem_cons_of_mem _ hs)⟩
      · rintro ⟨hbt, hs⟩
        rcases List.mem_cons.mp hbt with rfl | ht
        · exact List.mem_cons_self _ _
        · by_cases hab : a = b
          · exact hab ▸ List.mem_cons_self _ _
          · exact List.mem_cons_of_mem _ ((ih (b :: seen)).mpr
              ⟨ht, fun hmem => (List.mem_cons.mp hmem).elim hab hs⟩)

theorem mem_jsSetDedup (a : String) (l : List String) :
    a ∈ jsSetDedup l ↔ a ∈ l := by
  rw [jsSetDedup, mem_jsSetDedupAux]
  simp

end FsLemmas

section InvariantLemmas

/-- The media reference set of a user record: the schema stores one
filename string, empty meaning none. -/
def userMediaList (u : UserRec) : List String :=
  if u.media = "" then [] else [u.media]

/-- The on-disk/record consistency invariant for a user: the files of the
user's media directory are exactly the referenced names. -/
def invUser (fs : FS) (id : String) (u : UserRec) : Prop :=
  (dirNames fs id).toFinset = (userMediaList u).toFinset

/-- The on-disk/record consistency invariant for a recipe. -/
def invRecipe (fs : FS) (id : String) (r : RecipeRec) : Prop :=
  (dirNames fs id).toFinset = r.media.toFinset

instance (fs : FS) (id : String) (u : UserRec) : Decidable (invUser fs id u) :=
  inferInstanceAs (Decidable (_ = _))

instance (fs : FS) (id : String) (r : RecipeRec) : Decidable (invRecipe fs id r) :=
  inferInstanceAs (Decidable (_ = _))

theorem invUser_iff (fs : FS) (id : String) (u : UserRec) :
    invUser fs id u ↔ ∀ n, n ∈ dirNames fs id ↔ n ∈ userMediaList u := by
  unfold invUser
  constructor
  · intro h n
    rw [← List.mem_toFinset, h, List.mem_toFinset]
  · intro h
    ext a
    simp only [List.mem_toFinset]
    exact h a

theorem invRecipe_iff (fs : FS) (id : String) (r : RecipeRec) :
    invRecipe fs id r ↔ ∀ n, n ∈ dirNames fs id ↔ n ∈ r.media := by
  unfold invRecipe
  constructor
  · intro h n
    rw [← List.mem_toFinset, h, List.mem_toFinset]
  · intro h
    ext a
    simp only [List.mem_toFinset]
    exact h a

theorem mediaSet_of_nil (id : String) (f : Files) (ow : Bool)
    (fsFail : String → Bool) (fs : FS) (h : f.cleared = []) :
    mediaSet id (some f) ow fsFail fs =
      ((if f.rejected = [] then ⟨204, noContentMessage id, none⟩
        else ⟨204, noneClearedMessage, some ⟨f.cleared, f.rejected⟩⟩), fs) := by
  rw [mediaSet]
  by_cases hr : f.rejected = []
  · rw [if_pos ⟨h, hr⟩, if_pos hr]
  · rw [if_neg (fun hc => hr hc.2), if_pos h, if_neg hr]

theorem mediaSet_of_cleared_ne (id : String) (f : Files) (ow : Bool)
    (fsFail : String → Bool) (fs : FS) (h : f.cleared ≠ []) :
    mediaSet id (some f) ow fsFail fs =
      (⟨201, if f.rejected = [] then createdMessage id else someRejectedMessage,
        some ⟨f.cleared, f.rejected⟩⟩,
       writeAll id f.filteredFiles fsFail (createDir id (if ow then removeDir id fs else fs))) := by
  rw [mediaSet, if_neg (fun hc => h hc.1), if_neg h]
  simp only [writeToDisk_snd]

/-- Membership in the directory after the write phase of a successful
`set` without write faults. -/
theorem mem_dirNames_after_write (id : String) (f : Files) (base : FS) (n : String) :
    n ∈ dirNames (writeAll id f.filteredFiles noWriteFault (createDir id base)) id ↔
      n ∈ f.filteredFiles.map FilteredFile.unique ∨ n ∈ dirNames base id := by
  rw [mem_dirNames_writeAll id f.filteredFiles noWriteFault n (createDir id base)
    (mem_dirs_createDir id base), dirNames_createDir]
  constructor
  · rintro (⟨g, hg, hgn, _⟩ | hmem)
    · exact Or.inl (hgn ▸ List.mem_map_of_mem _ hg)
    · exact Or.inr hmem
  · rintro (hmem | hmem)
    · rcases List.mem_map.mp hmem with ⟨g, hg, hgn⟩
      exact Or.inl ⟨g, hg, hgn, rfl⟩
    · exact Or.inr hmem


end InvariantLemmas

theorem postUserMedia_inv (id : String) (u : UserRec) (f : Files) (fs : FS)
    (hWF : f.filteredFiles.map FilteredFile.unique = f.cleared.map ClearedEntry.unique)
    (hNE : ∀ c ∈ f.cleared, c.unique ≠ "")
    (hU : invUser fs id u) (hlen : f.cleared.length ≤ 1) :
    ∀ r u' fs', postUserMedia id true u (some f) noWriteFault fs = Except.ok (r, u', fs') →
      invUser fs' id u' := by
  intro r u' fs' h
  have hsplit : f.cleared = [] ∨ ∃ c, f.cleared = [c] := by
    cases hc : f.cleared with
    | nil => exact Or.inl rfl
    | cons c t =>
      cases t with
      | nil => exact Or.inr ⟨c, rfl⟩
      | cons d t2 => rw [hc] at hlen; simp at hlen
  rcases hsplit with hc | ⟨c, hc⟩
  · simp [postUserMedia, userSetMedia, hc, mediaIncluded, bind, Except.bind,
      mediaSet_of_nil id f false noWriteFault fs hc] at h
    obtain ⟨-, hu, hfs⟩ := h
    rw [← hu, ← hfs]
    exact hU
  · by_cases hm : u.media = ""
    · simp [postUserMedia, userSetMedia, hc, hm, mediaIncluded, bind, Except.bind,
        mediaSet_of_cleared_ne id f false noWriteFault fs (by rw [hc]; simp)] at h
      obtain ⟨-, hu, hfs⟩ := h
      rw [← hu, ← hfs]
      rw [invUser_iff]
      intro n
      rw [mem_dirNames_after_write, hWF, hc]
      have hnone : n ∈ dirNames fs id ↔ False := by
        rw [(invUser_iff fs id u).mp hU n]
        simp [userMediaList, hm]
      rw [hnone]
      have hcu : c.unique ≠ "" := hNE c (by rw [hc]; exact List.mem_cons_self _ _)
      simp [userMediaList, hcu]
    · simp [postUserMedia, userSetMedia, hc, hm, mediaIncluded, bind, Except.bind] at h
      obtain ⟨-, hu, hfs⟩ := h
      rw [← hu, ← hfs]
      exact hU

theorem putUserMedia_inv (id : String) (u : UserRec) (f : Files) (fs : FS)
    (hWF : f.filteredFiles.map FilteredFile.unique = f.cleared.map ClearedEntry.unique)
    (hNE : ∀ c ∈ f.cleared, c.unique ≠ "")
    (hU : invUser fs id u) (hlen : f.cleared.length ≤ 1) :
    ∀ r u' fs', putUserMedia id true u (some f) noWriteFault fs = Except.ok (r, u', fs') →
      invUser fs' id u' := by
  intro r u' fs' h
  have hsplit : f.cleared = [] ∨ ∃ c, f.cleared = [c] := by
    cases hc : f.cleared with
    | nil => exact Or.inl rfl
    | cons c t =>
      cases t with
      | nil => exact Or.inr ⟨c, rfl⟩
      | cons d t2 => rw [hc] at hlen; simp at hlen
  rcases hsplit with hc | ⟨c, hc⟩
  · simp [putUserMedia, userResetMedia, hc, bind, Except.bind,
      mediaSet_of_nil id f true noWriteFault fs hc] at h
    obtain ⟨-, hu, hfs⟩ := h
    rw [← hu, ← hfs]
    exact hU
  · simp [putUserMedia, userResetMedia, hc, bind, Except.bind,
      mediaSet_of_cleared_ne id f true noWriteFault fs (by rw [hc]; simp)] at h
    obtain ⟨-, hu, hfs⟩ := h
    rw [← hu, ← hfs]
    rw [invUser_iff]
    intro n
    rw [mem_dirNames_after_write, hWF, hc]
    have hcu : c.unique ≠ "" := hNE c (by rw [hc]; exact List.mem_cons_self _ _)
    simp [dirNames_removeDir, userMediaList, hcu]

theorem deleteUserMedia_inv (id : String) (u : UserRec) (fs : FS) :
    ∀ r u' fs', deleteUserMedia id true u fs = (r, u', fs') → invUser fs' id u' := by
  intro r u' fs' h
  simp [deleteUserMedia, userUnsetMedia, mediaUnset] at h
  obtain ⟨-, hu, hfs⟩ := h
  rw [← hu, ← hfs]
  rw [invUser_iff]
  intro n
  simp [dirNames_removeDir, userMediaList]

theorem postRecipeMedia_inv (id : String) (rec : RecipeRec) (f : Files) (fs : FS)
    (hWF : f.filteredFiles.map FilteredFile.unique = f.cleared.map ClearedEntry.unique)
    (hR : invRecipe fs id rec) :
    ∀ r rec' fs', postRecipeMedia id true rec (some f) noWriteFault fs = Except.ok (r, rec', fs') →
      invRecipe fs' id rec' := by
  intro r rec' fs' h
  cases hc : f.cleared with
  | nil =>
    simp [postRecipeMedia, recipeSetMedia, hc,
      mediaSet_of_nil id f false noWriteFault fs hc] at h
    obtain ⟨-, hr, hfs⟩ := h
    rw [← hr, ← hfs]
    exact hR
  | cons c t =>
    simp [postRecipeMedia, recipeSetMedia, hc,
      mediaSet_of_cleared_ne id f false noWriteFault fs (by rw [hc]; simp)] at h
    obtain ⟨-, hr, hfs⟩ := h
    rw [← hr, ← hfs]
    rw [invRecipe_iff]
    intro n
    rw [mem_dirNames_after_write, hWF, hc]
    rw [(invRecipe_iff fs id rec).mp hR n]
    simp only [mem_jsSetDedup, List.mem_append]
    constructor
    · rintro (hm | hm)
      · exact Or.inr hm
      · exact Or.inl hm
    · rintro (hm | hm)
      · exact Or.inr hm
      · exact Or.inl hm

theorem putRecipeMedia_inv (id : String) (rec : RecipeRec) (f : Files) (fs : FS)
    (hWF : f.filteredFiles.map FilteredFile.unique = f.cleared.map ClearedEntry.unique)
    (hR : invRecipe fs id rec) :
    ∀ r rec' fs', putRecipeMedia id true rec (some f) noWriteFault fs = Except.ok (r, rec', fs') →
      invRecipe fs' id rec' := by
  intro r rec' fs' h
  cases hc : f.cleared with
  | nil =>
    simp [putRecipeMedia, recipeResetMedia, hc,
      mediaSet_of_nil id f true noWriteFault fs hc] at h
    obtain ⟨-, hr, hfs⟩ := h
    rw [← hr, ← hfs]
    exact hR
  | cons c t =>
    simp [putRecipeMedia, recipeResetMedia, hc,
      mediaSet_of_cleared_ne id f true noWriteFault fs (by rw [hc]; simp)] at h
    obtain ⟨-, hr, hfs⟩ := h
    rw [← hr, ← hfs]
    rw [invRecipe_iff]
    intro n
    rw [mem_dirNames_after_write, hWF, hc]
    simp [dirNames_removeDir, mem_jsSetDedup]

theorem deleteRecipeMedia_inv (id : String) (rec : RecipeRec) (fs : FS) :
    ∀ r rec' fs', deleteRecipeMedia id true rec fs = (r, rec', fs') → invRecipe fs' id rec' := by
  intro r rec' fs' h
  simp [deleteRecipeMedia, recipeUnsetMedia, mediaUnset] at h
  obtain ⟨-, hr, hfs⟩ := h
  rw [← hr, ← hfs]
  rw [invRecipe_iff]
  intro n
  simp [dirNames_removeDir]

theorem exceptOk_iff {ε α : Type} (e : Except ε α) :
    exceptOk e = true ↔ ∃ x, e = Except.ok x := by
  cases e with
  | ok x => simp [exceptOk]
  | error _ => simp [exceptOk]

theorem parsePart_ok (rb : List String) (h : matchFilename (rb.headD "") ≠ none → 2 ≤ rb.length) :
    ∃ c, parsePart rb = Except.ok c := by
  rw [parsePart]
  cases hm : matchFilename (rb.headD "") with
  | none => exact ⟨_, rfl⟩
  | some nm =>
    have hlen := h (by rw [hm]; simp)
    match rb, hlen with
    | a :: b :: t, _ => exact ⟨_, rfl⟩

theorem mapM_parsePart_ok : ∀ (L : List (List String)),
    (∀ rb ∈ L, matchFilename (rb.headD "") ≠ none → 2 ≤ rb.length) →
    exceptOk (L.mapM parsePart) = true := by
  intro L
  induction L with
  | nil => intro _; rfl
  | cons rb t ih =>
    intro h
    obtain ⟨c, hc⟩ := parsePart_ok rb (h rb (List.mem_cons_self _ _))
    obtain ⟨cs, hcs⟩ := (exceptOk_iff _).mp
      (ih (fun rb' hrb' => h rb' (List.mem_cons_of_mem _ hrb')))
    rw [List.mapM_cons, hc, hcs]
    rfl

theorem sanOutCount (sniff : List Nat → Option String) (accept : String → Bool)
    (oracle : Nat → List Nat) :
    ∀ L : List (Nat × Cand),
      (L.filterMap (clearedEntryOf sniff accept oracle)).length
        + (L.filterMap (rejectedNameOf sniff accept)).length
        + L.countP (fun p => droppedCand sniff accept p.2) = L.length := by
  intro L
  induction L with
  | nil => rfl
  | cons p t ih =>
    obtain ⟨i, c⟩ := p
    cases c with
    | artifact =>
      simp only [List.filterMap_cons, clearedEntryOf, rejectedNameOf, droppedCand,
        List.countP_cons, List.length_cons, ← ih]
      simp
      omega
    | file n b =>
      by_cases hcl : clearFile sniff accept (Cand.file n b) = true
      · simp only [List.filterMap_cons, clearedEntryOf, rejectedNameOf, droppedCand, hcl,
          if_true, List.countP_cons, List.length_cons, ← ih]
        simp
        omega
      · simp only [Bool.not_eq_true] at hcl
        by_cases hn : n = ""
        · subst hn
          simp only [List.filterMap_cons, clearedEntryOf, rejectedNameOf, droppedCand, hcl,
            Bool.false_eq_true, if_false, List.countP_cons, List.length_cons, ← ih]
          simp
          omega
        · simp only [List.filterMap_cons, clearedEntryOf, rejectedNameOf, droppedCand, hcl,
            Bool.false_eq_true, if_false, List.countP_cons, List.length_cons, ← ih]
          simp [hn]
          omega

theorem hexEncodeChars_length (bs : List Nat) :
    (hexEncodeChars bs).length = 2 * bs.length := by
  induction bs with
  | nil => rfl
  | cons b t ih =>
    simp only [hexEncodeChars, List.flatMap_cons] at ih ⊢
    simp only [List.length_append, ih, byteToHex, List.length_cons, List.length_nil]
    omega

theorem isHexDigitCh_hexDigitChar (n : Nat) (h : n < 16) :
    isHexDigitCh (hexDigitChar n) = true := by
  interval_cases n <;> decide

theorem mem_hexEncodeChars (bs : List Nat) (ch : Char) (h : ch ∈ hexEncodeChars bs) :
    isHexDigitCh ch = true := by
  rw [hexEncodeChars, List.mem_flatMap] at h
  obtain ⟨b, -, hb⟩ := h
  rw [byteToHex] at hb
  rcases List.mem_cons.mp hb with rfl | hb
  · exact isHexDigitCh_hexDigitChar _ (Nat.mod_lt _ (by omega))
  · rcases List.mem_cons.mp hb with rfl | hb
    · exact isHexDigitCh_hexDigitChar _ (Nat.mod_lt _ (by omega))
    · simp at hb

theorem sanitize_order_range (sniff : List Nat → Option String) (accept : String → Bool)
    (oracle : Nat → List Nat) (files : List Cand) :
    (sanitize sniff accept oracle (List.range files.length) files).cleared.map
        ClearedEntry.original = files.filterMap (clearedCandName sniff accept)
    ∧ (sanitize sniff accept oracle (List.range files.length) files).rejected
        = files.filterMap (rejectedCandName sniff accept) := by
  rw [sanitize_eq, scheduleOf_range]
  constructor
  · rw [List.map_filterMap]
    rw [List.filterMap_congr (fun p _ => clearedEntryOf_map_original sniff accept oracle p)]
    rw [List.enum]
    exact enumFrom_filterMap_snd (clearedCandName sniff accept) files 0
  · rw [List.filterMap_congr (fun p _ => rejectedNameOf_eq_snd sniff accept p)]
    rw [List.enum]
    exact enumFrom_filterMap_snd (rejectedCandName sniff accept) files 0

theorem schedule_perm_enum (files : List Cand) (σ : List Nat)
    (hσ : σ.Perm (List.range files.length)) :
    (scheduleOf files σ).Perm files.enum := by
  rw [← scheduleOf_range]
  exact hσ.map _

theorem sanitize_partition_perm (sniff : List Nat → Option String) (accept : String → Bool)
    (oracle : Nat → List Nat) (σ : List Nat) (files : List Cand)
    (hσ : σ.Perm (List.range files.length)) :
    ((sanitize sniff accept oracle σ files).cleared.map ClearedEntry.original).Perm
        (files.filterMap (clearedCandName sniff accept))
    ∧ ((sanitize sniff accept oracle σ files).rejected).Perm
        (files.filterMap (rejectedCandName sniff accept))
    ∧ (sanitize sniff accept oracle σ files).cleared.length
        + (sanitize sniff accept oracle σ files).rejected.length
        + files.countP (droppedCand sniff accept) = files.length := by
  have hperm := schedule_perm_enum files σ hσ
  have henum : ∀ {β : Type} (g : Cand → Option β),
      files.enum.filterMap (fun p => g p.2) = files.filterMap g := by
    intro β g
    rw [List.enum]
    exact enumFrom_filterMap_snd g files 0
  rw [sanitize_eq]
  refine ⟨?_, ?_, ?_⟩
  · show ((scheduleOf files σ).filterMap (clearedEntryOf sniff accept oracle)).map
        ClearedEntry.original |>.Perm _
    rw [List.map_filterMap]
    rw [List.filterMap_congr (fun p _ => clearedEntryOf_map_original sniff accept oracle p)]
    have h1 := hperm.filterMap (fun p => clearedCandName sniff accept p.2)
    rw [henum (clearedCandName sniff accept)] at h1
    exact h1
  · show ((scheduleOf files σ).filterMap (rejectedNameOf sniff accept)).Perm _
    rw [List.filterMap_congr (fun p _ => rejectedNameOf_eq_snd sniff accept p)]
    have h1 := hperm.filterMap (fun p => rejectedCandName sniff accept p.2)
    rw [henum (rejectedCandName sniff accept)] at h1
    exact h1
  · show ((scheduleOf files σ).filterMap (clearedEntryOf sniff accept oracle)).length
        + ((scheduleOf files σ).filterMap (rejectedNameOf sniff accept)).length
        + files.countP (droppedCand sniff accept) = files.length
    have hcount := sanOutCount sniff accept oracle (scheduleOf files σ)
    have hlen : (scheduleOf files σ).length = files.length := by
      rw [hperm.length_eq, List.enum_length]
    have hart : (scheduleOf files σ).countP (fun p => droppedCand sniff accept p.2)
        = files.countP (droppedCand sniff accept) := by
      rw [hperm.countP_eq, List.enum]
      exact enumFrom_countP_snd (droppedCand sniff accept) files 0
    rw [hart, hlen] at hcount
    exact hcount

theorem sanitize_unique_structure (sniff : List Nat → Option String) (accept : String → Bool)
    (oracle : Nat → List Nat) (σ : List Nat) (files : List Cand) :
    ∀ c ∈ (sanitize sniff accept oracle σ files).cleared,
      ∃ i, i ∈ σ ∧ c.unique = (pathParse c.original).name ++ "-" ++ randomBytes (oracle i)
        ++ (pathParse c.original).ext := by
  intro c hc
  rw [sanitize_eq] at hc
  have hc' : c ∈ (scheduleOf files σ).filterMap (clearedEntryOf sniff accept oracle) := hc
  obtain ⟨⟨i, cand⟩, hmem, heq⟩ := List.mem_filterMap.mp hc'
  have hiσ : i ∈ σ := by
    obtain ⟨j, hj, hje⟩ := List.mem_map.mp hmem
    obtain ⟨rfl, -⟩ := Prod.mk.injEq .. ▸ hje
    exact hj
  cases cand with
  | artifact => simp [clearedEntryOf] at heq
  | file n b =>
    rw [clearedEntryOf] at heq
    by_cases hclr : clearFile sniff accept (Cand.file n b) = true
    · rw [if_pos hclr] at heq
      obtain rfl := Option.some.inj heq
      exact ⟨i, hiσ, rfl⟩
    · rw [if_neg hclr] at heq
      exact absurd heq (by simp)

theorem string_append_ne_empty (a b c : String) : a ++ "-" ++ b ++ c ≠ "" := fun h => by
  have hl := congrArg String.length h
  simp only [String.length_append] at hl
  rw [show ("-" : String).length = 1 from rfl, show ("" : String).length = 0 from rfl] at hl
  omega

theorem sanitize_unique_ne (sniff : List Nat → Option String) (accept : String → Bool)
    (oracle : Nat → List Nat) (σ : List Nat) (files : List Cand) :
    ∀ c ∈ (sanitize sniff accept oracle σ files).cleared, c.unique ≠ "" := by
  intro c hc
  obtain ⟨i, -, hu⟩ := sanitize_unique_structure sniff accept oracle σ files c hc
  rw [hu]
  exact string_append_ne_empty _ _ _

theorem userSetMedia_conflict_iff (id : String) (ue : Bool) (u : UserRec)
    (files? : Option Files) :
    (∃ r u', userSetMedia id ue u files? = Except.ok (r, u') ∧ r.status = 400
        ∧ r.message = userConflictMessage id)
      ↔ (ue = true ∧ u.media ≠ "" ∧ ∃ f, files? = some f ∧ f.cleared ≠ []) := by
  cases ue with
  | false =>
    simp [userSetMedia]
  | true =>
    cases files? with
    | none =>
      by_cases hm : u.media = ""
      · simp [userSetMedia, hm]
      · simp [userSetMedia, hm]
    | some f =>
      by_cases hm : u.media = ""
      · by_cases hcl : f.cleared = []
        · simp [userSetMedia, hm, hcl, mediaIncluded]
        · have hpos : 0 < f.cleared.length := List.length_pos.mpr hcl
          simp [userSetMedia, hm, hcl, mediaIncluded, hpos]
      · by_cases hcl : f.cleared = []
        · simp [userSetMedia, hm, hcl, mediaIncluded]
        · have hpos : 0 < f.cleared.length := List.length_pos.mpr hcl
          simp [userSetMedia, hm, hcl, mediaIncluded, hpos]

/-! Concrete fixtures used to evaluate the model. -/

/-- An empty media root. -/
def fsEmpty : FS := ⟨[], []⟩

/-- A user with no linked media (`media` is the empty string). -/
def userNoMedia : UserRec := ⟨""⟩

/-- A sanitize result with two cleared files (as the bouncer produces for
two genuine images) and no rejections. -/
def twoFileBatch : Files :=
  ⟨[⟨"a.png", "a-11.png"⟩, ⟨"b.png", "b-22.png"⟩], [],
   [⟨"a-11.png", "a.png", [1]⟩, ⟨"b-22.png", "b.png", [2]⟩]⟩

/-- A sanitize result with one cleared file and no rejections. -/
def oneFileBatch : Files :=
  ⟨[⟨"a.png", "a-11.png"⟩], [], [⟨"a-11.png", "a.png", [1]⟩]⟩

/-- A sanitize result where one candidate was rejected and none cleared. -/
def rejectedOnlyBatch : Files := ⟨[], ["bad.txt"], []⟩

/-- Model of the `file-type` signature sniffer: detects `image/png` for
buffers starting with the PNG magic byte 0x89, nothing otherwise. -/
def sniffMagic : List Nat → Option String :=
  fun b => if b.headD 0 = 137 then some "image/png" else none

/-- Model of the accept pattern `/image\/(jpeg|png)/` as a predicate. -/
def acceptImage : String → Bool :=
  fun m => m = "image/png" || m = "image/jpeg"

/-- Randomness oracle whose i-th call yields eight bytes. -/
def oracle8 : Nat → List Nat :=
  fun i => List.replicate 8 (i % 256)

/-- Two genuine PNG candidates as decoded from a two-file upload. -/
def cands2 : List Cand :=
  [Cand.file "a.png" [137], Cand.file "b.png" [137]]

/-- The two PNG candidates together with a failing candidate whose
decoded name is the empty string. -/
def cands2e : List Cand :=
  [Cand.file "a.png" [137], Cand.file "b.png" [137], Cand.file "" [255]]

/-- A multipart body (boundary `X`) whose part header ends in the bytes
`filename="b ` — hex `6220` after the filename marker — so the greedy
hex run backtracks to the single digit `6`, which decodes to an empty
buffer: the extracted candidate's name is the empty string. -/
def emptyNameBody : String :=
  "2d2d580d0a" ++ "66696c656e616d653d226220" ++ "0d0a0d0a" ++ "ff" ++ "0d0a"
    ++ "2d2d582d2d0d0a"

/-- An attach request with an explicitly empty body (`Content-Length: 0`). -/
def reqEmpty : Req := ⟨some "0", some "multipart/form-data; boundary=X", ""⟩

/-- A multipart body (boundary `X`) whose only part carries a
`filename="a"` attribute but no blank-line separator between header block
and body: a truncated part. -/
def truncatedBody : String :=
  "2d2d580d0a" ++ "66696c656e616d653d226122" ++ "2d2d582d2d0d0a"

/-- Media root holding one stored file `a.b.png` for entity `r1`. -/
def fsDottedPng : FS := ⟨["r1"], [("r1", "a.b.png", [7, 8])]⟩

/-- Media root with two entity directories; `other` holds `f.png`. -/
def fsTwoEntities : FS := ⟨["r1", "other"], [("other", "f.png", [9])]⟩

/-! Claim theorems. -/

/-- C1, counterexample: a successful attach (status 201) on a user with
two cleared files leaves the record referencing only the first unique
name while both files are on disk, so the directory/record invariant
fails and `b-22.png` is orphaned.  The initial state satisfies the
invariant. -/
theorem c1_counterexample :
    invUser fsEmpty "u1" userNoMedia
    ∧ (postUserMedia "u1" true userNoMedia (some twoFileBatch) noWriteFault fsEmpty).map
        (fun t => (t.1.status, t.2.1.media, decide (invUser t.2.2 "u1" t.2.1),
          decide ("b-22.png" ∈ dirNames t.2.2 "u1")))
      = Except.ok (201, "a-11.png", false, true) := by
  constructor
  · decide
  · decide

/-- C1 (amended): with all disk writes succeeding and the sanitize output
well formed (the `filteredFiles` and `cleared` arrays carry the same
unique names, and cleared unique names are non-empty), the recipe attach,
replace and detach operations and the user detach operation preserve the
directory-equals-record invariant; the user attach and replace
operations preserve it only when at most one file was cleared (the user
record stores a single name while every filtered file is written). -/
theorem c1_media_consistency_amended (id : String) (f : Files) (fs : FS)
    (rec : RecipeRec) (u : UserRec)
    (hWF : f.filteredFiles.map FilteredFile.unique = f.cleared.map ClearedEntry.unique)
    (hNE : ∀ c ∈ f.cleared, c.unique ≠ "")
    (hR : invRecipe fs id rec) (hU : invUser fs id u) :
    (∀ r rec' fs', postRecipeMedia id true rec (some f) noWriteFault fs
        = Except.ok (r, rec', fs') → invRecipe fs' id rec')
    ∧ (∀ r rec' fs', putRecipeMedia id true rec (some f) noWriteFault fs
        = Except.ok (r, rec', fs') → invRecipe fs' id rec')
    ∧ (∀ r rec' fs', deleteRecipeMedia id true rec fs = (r, rec', fs')
        → invRecipe fs' id rec')
    ∧ (∀ r u' fs', deleteUserMedia id true u fs = (r, u', fs') → invUser fs' id u')
    ∧ (f.cleared.length ≤ 1 →
        (∀ r u' fs', postUserMedia id true u (some f) noWriteFault fs
          = Except.ok (r, u', fs') → invUser fs' id u')
        ∧ (∀ r u' fs', putUserMedia id true u (some f) noWriteFault fs
          = Except.ok (r, u', fs') → invUser fs' id u')) :=
  ⟨postRecipeMedia_inv id rec f fs hWF hR,
   putRecipeMedia_inv id rec f fs hWF hR,
   deleteRecipeMedia_inv id rec fs,
   deleteUserMedia_inv id u fs,
   fun hlen => ⟨postUserMedia_inv id u f fs hWF hNE hU hlen,
     putUserMedia_inv id u f fs hWF hNE hU hlen⟩⟩

/-- C1 witness: the amended theorem applied to a single-file attach on an
empty state yields the invariant for the resulting state. -/
theorem c1_media_consistency_amended_witness :
    invUser ⟨["e1"], [("e1", "a-11.png", [1])]⟩ "e1" ⟨"a-11.png"⟩ :=
  ((c1_media_consistency_amended "e1" oneFileBatch fsEmpty ⟨[]⟩ userNoMedia rfl
      (by decide) (by decide) (by decide)).2.2.2.2 (by decide)).1
    ⟨201, createdMessage "e1", some ⟨oneFileBatch.cleared, []⟩⟩ ⟨"a-11.png"⟩
    ⟨["e1"], [("e1", "a-11.png", [1])]⟩ (by decide)

/-- C2, counterexample: a user that already has media (`m.png`) and an
upload where nothing was cleared (one rejected candidate) makes attach
return 200, not the Conflict response the claim requires in exactly this
situation. -/
theorem c2_counterexample :
    userSetMedia "u1" true ⟨"m.png"⟩ (some rejectedOnlyBatch)
      = Except.ok (⟨200, userSetMediaOkMessage "u1", none⟩, ⟨"m.png"⟩) := by
  decide

/-- C2 (amended): attach fails with the 400 Conflict response saying the
media already exists exactly when the user exists, already has a
non-empty media reference, and at least one candidate WAS cleared — the
opposite polarity of the claim's "nothing new was cleared". -/
theorem c2_conflict_condition_amended (id : String) (ue : Bool) (u : UserRec)
    (files? : Option Files) :
    (∃ r u', userSetMedia id ue u files? = Except.ok (r, u') ∧ r.status = 400
        ∧ r.message = userConflictMessage id)
      ↔ (ue = true ∧ u.media ≠ "" ∧ ∃ f, files? = some f ∧ f.cleared ≠ []) :=
  userSetMedia_conflict_iff id ue u files?

/-- C2 witness: the amended equivalence at a concrete conflicting
attach. -/
theorem c2_conflict_condition_amended_witness :
    (∃ r u', userSetMedia "u1" true ⟨"m.png"⟩ (some twoFileBatch) = Except.ok (r, u')
        ∧ r.status = 400 ∧ r.message = userConflictMessage "u1")
      ↔ (true = true ∧ ("m.png" : String) ≠ ""
          ∧ ∃ f, (some twoFileBatch : Option Files) = some f ∧ f.cleared ≠ []) :=
  c2_conflict_condition_amended "u1" true ⟨"m.png"⟩ (some twoFileBatch)

/-- C3: on an attach request with `Content-Length: 0` the bouncer skips
parsing and leaves `req.files` unset (`none`); the user attach pipeline
then throws a TypeError reading `files.cleared` instead of answering 204
(and the media service, handed the unset files object, answers 500, not
204); the filesystem is untouched, so no directory is created. -/
theorem c3_empty_body_evaluation :
    bounce sniffMagic acceptImage oracle8 [] reqEmpty = Except.ok none
    ∧ userMediaPostRequest sniffMagic acceptImage oracle8 [] "u1" true userNoMedia
        noWriteFault fsEmpty reqEmpty = Except.error ()
    ∧ mediaSet "u1" none false noWriteFault fsEmpty
        = (⟨500, "Internal server error.", none⟩, fsEmpty) := by
  refine ⟨?_, ?_, ?_⟩ <;> decide

/-- C4, counterexample: with one of two writes failing, `writeToDisk`
returns exactly the value it returns when every write succeeds (a list of
`undefined`), the failed file is missing from the directory, and `set`
still reports 201 — the partial failure is silently swallowed, not
reported. -/
theorem c4_counterexample :
    (writeToDisk "e1" twoFileBatch.filteredFiles (fun n => n = "b-22.png")
        (createDir "e1" fsEmpty)).1
      = (writeToDisk "e1" twoFileBatch.filteredFiles noWriteFault
        (createDir "e1" fsEmpty)).1
    ∧ "b-22.png" ∉ dirNames (writeToDisk "e1" twoFileBatch.filteredFiles
        (fun n => n = "b-22.png") (createDir "e1" fsEmpty)).2 "e1"
    ∧ (mediaSet "e1" (some twoFileBatch) false (fun n => n = "b-22.png") fsEmpty).1.status
      = 201 := by
  refine ⟨?_, ?_, ?_⟩ <;> decide

/-- C4 (amended): a failure writing one file never prevents the attempts
on the others — every non-failing file is written regardless of the fault
pattern — but failures are not reported: the resolved value is the same
constant list of `undefined` for every fault pattern, and `set` reports
201 whenever anything was cleared, faults or not. -/
theorem c4_write_isolation_amended (id : String) (files : List FilteredFile)
    (fsFail : String → Bool) (fs : FS) :
    (writeToDisk id files fsFail fs).1 = files.map (fun _ => ())
    ∧ (∀ f ∈ files, id ∈ fs.dirs → fsFail f.unique = false →
        f.unique ∈ dirNames (writeToDisk id files fsFail fs).2 id)
    ∧ (∀ f', f'.cleared ≠ [] → (mediaSet id (some f') false fsFail fs).1.status = 201) := by
  refine ⟨writeToDisk_fst id files fsFail fs, ?_, ?_⟩
  · intro f hf hdir hfail
    rw [writeToDisk_snd]
    exact (mem_dirNames_writeAll id files fsFail f.unique fs hdir).mpr
      (Or.inl ⟨f, hf, rfl, hfail⟩)
  · intro f' h
    rw [mediaSet_of_cleared_ne id f' false fsFail fs h]

/-- C4 witness: the amended theorem at a concrete two-file batch where
the second write fails. -/
theorem c4_write_isolation_amended_witness :
    (writeToDisk "e1" twoFileBatch.filteredFiles (fun n => n = "b-22.png")
        (createDir "e1" fsEmpty)).1 = twoFileBatch.filteredFiles.map (fun _ => ())
    ∧ "a-11.png" ∈ dirNames (writeToDisk "e1" twoFileBatch.filteredFiles
        (fun n => n = "b-22.png") (createDir "e1" fsEmpty)).2 "e1"
    ∧ (mediaSet "e1" (some twoFileBatch) false (fun n => n = "b-22.png")
        (createDir "e1" fsEmpty)).1.status = 201 := by
  obtain ⟨h1, h2, h3⟩ := c4_write_isolation_amended "e1" twoFileBatch.filteredFiles
    (fun n => n = "b-22.png") (createDir "e1" fsEmpty)
  exact ⟨h1, h2 ⟨"a-11.png", "a.png", [1]⟩ (by decide) (by decide) (by decide),
    h3 twoFileBatch (by decide)⟩

/-- C5, counterexample: a body whose only part carries a filename match
but no blank-line separator makes the decoder throw (the claim's own
example of a truncated part), rather than degrade to "no candidates". -/
theorem c5_counterexample :
    parseMultipartFormData truncatedBody "X" = Except.error () := by
  decide

/-- C5 (amended): decoding cannot throw as long as every
boundary-delimited part whose header matches the filename pattern also
contains the `CRLF CRLF` separator; parts with no filename match (and
malformed boundaries, which only change the segmentation) degrade to
artifacts or empty candidate lists.  The counterexample shows the
remaining case — filename match and no separator — throws. -/
theorem c5_decoder_no_fault_amended (raw boundary : String)
    (h : ∀ rb ∈ multipartSegs raw boundary,
      matchFilename (rb.headD "") ≠ none → 2 ≤ rb.length) :
    exceptOk (parseMultipartFormData raw boundary) = true :=
  mapM_parsePart_ok (multipartSegs raw boundary) h

/-- C5 witness: the amended theorem on the empty body. -/
theorem c5_decoder_no_fault_amended_witness :
    exceptOk (parseMultipartFormData "" "X") = true :=
  c5_decoder_no_fault_amended "" "X" (by decide)

/-- C6, counterexample: under the completion schedule that finishes the
second candidate's scan first — a legitimate interleaving of the
parallel scans, since the code does not order the pushes — `cleared`
lists the candidates in the order `b.png, a.png`, not the input order
`a.png, b.png`. -/
theorem c6_counterexample :
    ([1, 0] : List Nat).Perm (List.range cands2.length)
    ∧ (sanitize sniffMagic acceptImage oracle8 [1, 0] cands2).cleared.map
        ClearedEntry.original = ["b.png", "a.png"]
    ∧ cands2.filterMap (clearedCandName sniffMagic acceptImage) = ["a.png", "b.png"]
    ∧ (["b.png", "a.png"] : List String) ≠ ["a.png", "b.png"] := by
  refine ⟨?_, ?_, ?_, ?_⟩ <;> decide

/-- C6 (amended): each partition of the sanitize output lists candidates
in the completion order of the parallel scans; when the scans complete in
submission order (the `List.range` schedule, e.g. sequential execution)
input order is preserved in both `cleared` and `rejected` — `rejected`
listing, in that order, the failing candidates whose decoded name is
non-empty, since the `else if (file.name)` guard silently drops falsy
names.  The code does not constrain the completion order, so
preservation is not guaranteed (see the counterexample). -/
theorem c6_order_amended (sniff : List Nat → Option String) (accept : String → Bool)
    (oracle : Nat → List Nat) (files : List Cand) :
    (sanitize sniff accept oracle (List.range files.length) files).cleared.map
        ClearedEntry.original = files.filterMap (clearedCandName sniff accept)
    ∧ (sanitize sniff accept oracle (List.range files.length) files).rejected
        = files.filterMap (rejectedCandName sniff accept) :=
  sanitize_order_range sniff accept oracle files

/-- C7, counterexample: the decoder can produce a candidate whose
decoded filename is the empty string (the header bytes `filename="b `
put the hex `6220` after the marker, the greedy run backtracks to the
single digit `6`, and `Buffer.from('6', 'hex')` is empty).  When such a
candidate fails the scan it lands in neither `cleared` nor `rejected`
(the `else if (file.name)` guard drops it) and it is not a nameless
artifact, so `cleared.length + rejected.length + droppedNonFileParts =
totalParts` fails: 0 + 0 + 0 ≠ 1. -/
theorem c7_counterexample :
    parseMultipartFormData emptyNameBody "X" = Except.ok [Cand.file "" [255]]
    ∧ ([0] : List Nat).Perm (List.range ([Cand.file "" [255]] : List Cand).length)
    ∧ sanitize sniffMagic acceptImage oracle8 [0] [Cand.file "" [255]] = ⟨[], [], []⟩
    ∧ (sanitize sniffMagic acceptImage oracle8 [0] [Cand.file "" [255]]).cleared.length
        + (sanitize sniffMagic acceptImage oracle8 [0] [Cand.file "" [255]]).rejected.length
        + ([Cand.file "" [255]] : List Cand).countP (fun c => c == Cand.artifact)
      ≠ ([Cand.file "" [255]] : List Cand).length := by
  refine ⟨?_, ?_, ?_, ?_⟩ <;> decide

/-- C7 (amended): for every legitimate completion schedule, the cleared
originals are a permutation of exactly the candidates whose bytes clear
the scan (an empty decoded name is still cleared — the cleared branch
never checks the name), and the rejected names are a permutation of
exactly the failing candidates whose decoded name is non-empty; a
failing candidate with an empty (falsy) name is silently dropped by the
`else if (file.name)` guard, exactly like a nameless artifact.  The
count identity holds with the dropped side enlarged accordingly:
`cleared.length + rejected.length + dropped = totalParts`, where
`dropped` counts artifacts and empty-named failing candidates. -/
theorem c7_partition_exactness (sniff : List Nat → Option String) (accept : String → Bool)
    (oracle : Nat → List Nat) (σ : List Nat) (files : List Cand)
    (hσ : σ.Perm (List.range files.length)) :
    ((sanitize sniff accept oracle σ files).cleared.map ClearedEntry.original).Perm
        (files.filterMap (clearedCandName sniff accept))
    ∧ ((sanitize sniff accept oracle σ files).rejected).Perm
        (files.filterMap (rejectedCandName sniff accept))
    ∧ (sanitize sniff accept oracle σ files).cleared.length
        + (sanitize sniff accept oracle σ files).rejected.length
        + files.countP (droppedCand sniff accept) = files.length :=
  sanitize_partition_perm sniff accept oracle σ files hσ

/-- C7 witness: the partition facts at a concrete batch, under a
reversed schedule, that contains an empty-named failing candidate
alongside two clearing candidates. -/
theorem c7_partition_exactness_witness :
    ((sanitize sniffMagic acceptImage oracle8 [2, 1, 0] cands2e).cleared.map
        ClearedEntry.original).Perm
        (cands2e.filterMap (clearedCandName sniffMagic acceptImage))
    ∧ ((sanitize sniffMagic acceptImage oracle8 [2, 1, 0] cands2e).rejected).Perm
        (cands2e.filterMap (rejectedCandName sniffMagic acceptImage))
    ∧ (sanitize sniffMagic acceptImage oracle8 [2, 1, 0] cands2e).cleared.length
        + (sanitize sniffMagic acceptImage oracle8 [2, 1, 0] cands2e).rejected.length
        + cands2e.countP (droppedCand sniffMagic acceptImage) = cands2e.length :=
  c7_partition_exactness sniffMagic acceptImage oracle8 [2, 1, 0] cands2e (by decide)

/-- C8: when the randomness source yields 8-byte tokens (as
`crypto.randomBytes(8)` does), every cleared candidate's minted storage
name is its base name, a dash, the hex encoding of a fresh token — 16
hex digits — and the candidate's original extension. -/
theorem c8_unique_name_structure (sniff : List Nat → Option String) (accept : String → Bool)
    (oracle : Nat → List Nat) (σ : List Nat) (files : List Cand)
    (hOr : ∀ i, (oracle i).length = 8) :
    ∀ c ∈ (sanitize sniff accept oracle σ files).cleared,
      ∃ i, i ∈ σ
        ∧ c.unique = (pathParse c.original).name ++ "-" ++ randomBytes (oracle i)
            ++ (pathParse c.original).ext
        ∧ (randomBytes (oracle i)).length = 16
        ∧ (∀ ch ∈ (randomBytes (oracle i)).data, isHexDigitCh ch = true) := by
  intro c hc
  obtain ⟨i, hi, hu⟩ := sanitize_unique_structure sniff accept oracle σ files c hc
  refine ⟨i, hi, hu, ?_, ?_⟩
  · show (hexEncodeChars (oracle i)).length = 16
    rw [hexEncodeChars_length, hOr i]
  · intro ch hch
    exact mem_hexEncodeChars (oracle i) ch hch

/-- C8 witness: the minted-name structure at a concrete cleared
candidate. -/
theorem c8_unique_name_structure_witness :
    ∃ i, i ∈ ([0, 1] : List Nat)
      ∧ ("a-0000000000000000.png" : String)
          = (pathParse "a.png").name ++ "-" ++ randomBytes (oracle8 i)
            ++ (pathParse "a.png").ext
      ∧ (randomBytes (oracle8 i)).length = 16
      ∧ (∀ ch ∈ (randomBytes (oracle8 i)).data, isHexDigitCh ch = true) :=
  c8_unique_name_structure sniffMagic acceptImage oracle8 [0, 1] cands2 (fun _ => rfl)
    ⟨"a.png", "a-0000000000000000.png"⟩ (by decide)

/-- C9: for the stored filename `a.b.png` (extension `.png`) that exists
on disk, `fetch` does return 200 with the bytes in its message field, but
the route handler sends the unset `context` field — an empty body, not
the raw bytes — and labels it `image/jpeg`, because it inspects
`split('.')[1]` (the token between the first two dots) instead of the
extension. -/
theorem c9_media_read_evaluation :
    mediaFetch fsDottedPng "r1" "a.b.png" = ⟨200, FetchMsg.bytes [7, 8], none⟩
    ∧ getRecipeMediaRoute fsDottedPng "r1" "a.b.png"
        = RouteOut.fileOut 200 "image/jpeg" none
    ∧ (pathParse "a.b.png").ext = ".png" := by
  refine ⟨?_, ?_, ?_⟩ <;> decide

/-- C10: `fetch` performs no confinement of the name argument: the name
`../other/f.png` requested for entity `r1` resolves to another entity's
directory and its bytes come back with status 200. -/
theorem c10_path_traversal :
    mediaFetch fsTwoEntities "r1" "../other/f.png" = ⟨200, FetchMsg.bytes [9], none⟩
    ∧ resolvePath "r1" "../other/f.png" = ["other", "f.png"]
    ∧ (resolvePath "r1" "../other/f.png").headD "" ≠ "r1" := by
  refine ⟨?_, ?_, ?_⟩ <;> decide
